import Mathlib

/-!
Shallow embedding of `src/crates/pop-parachains/src/up/relay.rs` (pop-cli):
the relay-chain binary source-resolution logic.  External capabilities
(release listing, version resolution, platform detection) are modelled as
explicit parameters, mirroring the exact shapes of their call sites in the
source.
-/

namespace Relay

/-- Error type of the resolution core.  `UnsupportedCommand` carries a string
payload, as in the source; the remaining constructors stand for errors raised
by the external capabilities (repository parsing, platform detection, release
listing), which the core propagates unchanged. -/
inductive Error where
  | UnsupportedCommand (payload : String)
  | InvalidRepository (url : String)
  | UnsupportedPlatform
  | External (payload : String)
deriving DecidableEq, Repr

/-- The supported relay chains (`enum RelayChain`), a closed set with one
variant, `Polkadot`. -/
inductive RelayChain where
  | Polkadot
deriving DecidableEq, Repr

/-- The variants in declared order (strum `VariantArray`). -/
def RelayChain.VARIANTS : List RelayChain := [RelayChain.Polkadot]

/-- Static `Repository` property of each variant. -/
def RelayChain.repository : RelayChain → String
  | RelayChain.Polkadot => "https://github.com/r0gue-io/polkadot"

/-- Static `Binary` property of each variant. -/
def RelayChain.binary : RelayChain → String
  | RelayChain.Polkadot => "polkadot"

/-- Static `TagFormat` property of each variant (`tag_format()` returns an
optional template). -/
def RelayChain.tag_format : RelayChain → Option String
  | RelayChain.Polkadot => some "polkadot-{tag}"

/-- Static `Fallback` property of each variant. -/
def RelayChain.fallback : RelayChain → String
  | RelayChain.Polkadot => "v1.12.0"

/-- `RelayChain::workers`: the additional worker binaries required for the
relay chain (a fixed two-element array in the source). -/
def RelayChain.workers : RelayChain → List String
  | RelayChain.Polkadot => ["polkadot-execute-worker", "polkadot-prepare-worker"]

/-- Rust `str::to_lowercase`, modelled character by character; all binary
names and commands involved are ASCII, where per-character lowering agrees
with Rust. -/
def lowercase (s : String) : String := String.mk (s.data.map Char.toLower)

/-- Rust `str::ends_with`: the second string is a suffix of the first. -/
def ends_with (s post : String) : Bool := List.isSuffixOf post.data s.data

/-- An (owner, name) pair produced by parsing a repository URL. -/
structure Repository where
  org : String
  name : String
deriving DecidableEq, Repr

/-- Split a character list at every occurrence of the separator. -/
def splitOnChar (sep : Char) : List Char → List (List Char)
  | [] => [[]]
  | c :: rest =>
    let r := splitOnChar sep rest
    if c = sep then [] :: r else (c :: r.headD []) :: r.tail

/-- Modelled from the spec: `parse_repository(url) -> {owner, name}` — the
GitHub URL parser (`crate::GitHub::parse`) is not under `src/`; per the spec
it splits a well-formed hosting-service URL into the owner organization and
the repository name, and fails with `InvalidRepository` if the URL does not
match the expected shape. -/
def githubParse (url : String) : Except Error Repository :=
  match (splitOnChar '/' url.data).map String.mk with
  | ["https:", "", "github.com", org, name] => Except.ok { org := org, name := name }
  | _ => Except.error (Error.InvalidRepository url)

/-- `GitHub::ReleaseArchive`: an immutable descriptor of a downloadable
release archive.  Two descriptors are equal iff every field matches. -/
structure ReleaseArchive where
  owner : String
  repository : String
  tag : Option String
  tag_format : Option String
  archive : String
  contents : List String
  latest : Option String
deriving DecidableEq, Repr

/-- `Source`: the source of a binary (only the GitHub release-archive
constructor is exercised by this module). -/
inductive Source where
  | GitHub (a : ReleaseArchive)
deriving DecidableEq, Repr

/-- `Binary::Source`: a named binary, its source descriptor and cache
directory (paths are modelled as strings). -/
structure BinarySource where
  name : String
  source : Source
  cache : String
deriving DecidableEq, Repr

/-- `super::RelayChain` — the resolution output, called `ResolvedRelay` in
the spec (renamed here because the registry enum already carries the name
`RelayChain`): a binary handle paired with its required worker binaries. -/
structure ResolvedRelay where
  binary : BinarySource
  workers : List String
deriving DecidableEq, Repr

/-- The external capabilities consumed by the resolver, with the exact shapes
of their call sites in the source: `releases()` is fallible;
`Binary::resolve_version(name, version, releases, cache)` returns the tag
directly (an optional string, no error path and no suspension point at the
call site); `target()` is fallible. -/
structure Caps where
  releases : RelayChain → Except Error (List String)
  resolve_version : String → Option String → List String → String → Option String
  target : Except Error String

/-- `TryInto for &RelayChain::try_into(tag, latest)`: build the `Source` for a
variant.  Parses the repository URL (propagating its error), computes the
archive name from the binary name and the platform triple (propagating a
platform-detection failure), chains `binary` with the workers for `contents`,
and passes `tag` and `latest` through unchanged. -/
def RelayChain.try_into (caps : Caps) (relay : RelayChain) (tag : Option String)
    (latest : Option String) : Except Error Source :=
  match relay with
  | RelayChain.Polkadot => do
    let repo ← githubParse relay.repository
    let triple ← caps.target
    Except.ok (Source.GitHub
      { owner := repo.org
        repository := repo.name
        tag := tag
        tag_format := relay.tag_format
        archive := relay.binary ++ "-" ++ triple ++ ".tar.gz"
        contents := relay.binary :: relay.workers
        latest := latest })

/-- The body of the loop in `from`: iterate the variants in declared order,
skip those whose `binary` is not a suffix of the lower-cased command, and
return the resolution of the first match; with no match left, fail with
`UnsupportedCommand` carrying the formatted message. -/
def fromLoop (caps : Caps) (command : String) (version : Option String)
    (cache : String) : List RelayChain → Except Error ResolvedRelay
  | [] => Except.error (Error.UnsupportedCommand
      ("the relay chain command is unsupported: " ++ command))
  | relay :: rest =>
    if ends_with (lowercase command) relay.binary then do
      let name := relay.binary
      let releases ← caps.releases relay
      let tag := caps.resolve_version name version releases cache
      let latest := if version.isNone then releases.head? else none
      let source ← RelayChain.try_into caps relay tag latest
      Except.ok { binary := { name := name, source := source, cache := cache }
                  workers := relay.workers }
    else fromLoop caps command version cache rest

/-- `from(command, version, cache)`: resolve an arbitrary command string
against the registry. -/
def relayFrom (caps : Caps) (command : String) (version : Option String)
    (cache : String) : Except Error ResolvedRelay :=
  fromLoop caps command version cache RelayChain.VARIANTS

/-- `default(version, cache)`: resolve the registry's default variant by
passing its binary name as the command. -/
def relayDefault (caps : Caps) (version : Option String) (cache : String) :
    Except Error ResolvedRelay :=
  relayFrom caps RelayChain.Polkadot.binary version cache

/-- A concrete capability bundle used to instantiate hypotheses on concrete
inputs: two known releases, a resolver preferring the explicit version and
falling back to the newest release, and a fixed platform triple. -/
def capsDemo : Caps :=
  { releases := fun _ => Except.ok ["v1.13.0", "v1.12.0"]
    resolve_version := fun _ version releases _ =>
      match version with
      | some v => some v
      | none => releases.head?
    target := Except.ok "x86_64-unknown-linux-gnu" }

/-- A capability bundle whose release listing fails. -/
def capsReleasesFail : Caps :=
  { releases := fun _ => Except.error (Error.External "release listing failed")
    resolve_version := fun _ version _ _ => version
    target := Except.ok "x86_64-unknown-linux-gnu" }

/-- A capability bundle whose version-resolution capability never yields a
tag — the closest its call-site type admits to a failure. -/
def capsNoVersion : Caps :=
  { releases := fun _ => Except.ok ["v1.13.0"]
    resolve_version := fun _ _ _ _ => none
    target := Except.ok "aarch64-apple-darwin" }

/-- The descriptor produced for the `Polkadot` variant, parameterised by the
pass-through tag and latest marker and by the platform triple. -/
def polkadotArchive (tag latest : Option String) (t : String) : ReleaseArchive :=
  { owner := "r0gue-io"
    repository := "polkadot"
    tag := tag
    tag_format := some "polkadot-{tag}"
    archive := "polkadot" ++ "-" ++ t ++ ".tar.gz"
    contents := ["polkadot", "polkadot-execute-worker", "polkadot-prepare-worker"]
    latest := latest }

/-- The resolved relay produced for the `Polkadot` variant. -/
def polkadotResolved (tag latest : Option String) (t : String) (cache : String) :
    ResolvedRelay :=
  { binary := { name := "polkadot", source := Source.GitHub (polkadotArchive tag latest t),
                cache := cache }
    workers := ["polkadot-execute-worker", "polkadot-prepare-worker"] }

/-- Evaluating the repository parser on the registry's sole URL. -/
theorem githubParse_polkadot :
    githubParse "https://github.com/r0gue-io/polkadot" =
      Except.ok { org := "r0gue-io", name := "polkadot" } := rfl

/-- The exact successful result of `relayFrom` when the command matches the
`Polkadot` variant and both fallible capabilities succeed. -/
theorem fromLoop_match (caps : Caps) (command : String) (version : Option String)
    (cache : String) (rs : List String) (t : String)
    (hm : ends_with (lowercase command) "polkadot" = true)
    (hrel : caps.releases RelayChain.Polkadot = Except.ok rs)
    (ht : caps.target = Except.ok t) :
    relayFrom caps command version cache = Except.ok
      (polkadotResolved (caps.resolve_version "polkadot" version rs cache)
        (if version.isNone then rs.head? else none) t cache) := by
  simp only [relayFrom, RelayChain.VARIANTS, fromLoop, RelayChain.binary, hm, if_true,
    RelayChain.try_into, RelayChain.repository, githubParse_polkadot, RelayChain.tag_format,
    RelayChain.workers, hrel, ht, bind, Except.bind, polkadotResolved, polkadotArchive]

/-- Claim C1: calling default resolution with explicit version `"v1.12.0"`
and any cache path yields a resolved relay whose descriptor has owner
`"r0gue-io"`, repository `"polkadot"`, tag `some "v1.12.0"`, tag format
`some "polkadot-{tag}"` and contents
`["polkadot", "polkadot-execute-worker", "polkadot-prepare-worker"]`,
assuming the version-resolution capability returns the requested version when
one is supplied (and the fallible capabilities succeed). -/
theorem resolve_default_explicit_version (caps : Caps) (cache : String)
    (rs : List String) (t : String)
    (hrel : caps.releases RelayChain.Polkadot = Except.ok rs)
    (ht : caps.target = Except.ok t)
    (hv : caps.resolve_version "polkadot" (some "v1.12.0") rs cache = some "v1.12.0") :
    relayDefault caps (some "v1.12.0") cache = Except.ok
      (polkadotResolved (some "v1.12.0") none t cache) := by
  have h := fromLoop_match caps "polkadot" (some "v1.12.0") cache rs t (by decide) hrel ht
  rw [relayDefault, show RelayChain.Polkadot.binary = "polkadot" from rfl, h, hv]
  rfl

/-- Witness for C1 at a concrete capability bundle and cache path. -/
theorem resolve_default_explicit_version_witness :
    relayDefault capsDemo (some "v1.12.0") "/cache" = Except.ok
      (polkadotResolved (some "v1.12.0") none "x86_64-unknown-linux-gnu" "/cache") :=
  resolve_default_explicit_version capsDemo "/cache" ["v1.13.0", "v1.12.0"]
    "x86_64-unknown-linux-gnu" rfl rfl rfl

/-- Claim C2 counterexample: `resolve_command("none", None, cache)` does fail
with `UnsupportedCommand`, but the error payload is the formatted message
`"the relay chain command is unsupported: none"`, not the bare command string
`"none"` that the claim asserts. -/
theorem unsupported_command_payload_counterexample :
    relayFrom capsDemo "none" none "/cache" =
      Except.error (Error.UnsupportedCommand
        ("the relay chain command is unsupported: none")) ∧
    relayFrom capsDemo "none" none "/cache" ≠
      Except.error (Error.UnsupportedCommand "none") := by
  refine ⟨rfl, fun h => ?_⟩
  rw [show relayFrom capsDemo "none" none "/cache" =
      Except.error (Error.UnsupportedCommand
        ("the relay chain command is unsupported: none")) from rfl] at h
  injection h with h
  injection h with h
  exact absurd h (by decide)

/-- Claim C2 (amended): for every command of which no registry variant's
binary name is a suffix after lower-casing, `resolve_command` fails with
`UnsupportedCommand` whose payload is the message
`"the relay chain command is unsupported: "` followed by the original,
un-lower-cased command string; in particular for the command `"none"` the
payload is `"the relay chain command is unsupported: none"`. -/
theorem unsupported_command_message (caps : Caps) (command : String)
    (version : Option String) (cache : String)
    (hm : ends_with (lowercase command) "polkadot" = false) :
    relayFrom caps command version cache = Except.error
      (Error.UnsupportedCommand
        ("the relay chain command is unsupported: " ++ command)) := by
  simp only [relayFrom, RelayChain.VARIANTS, fromLoop, RelayChain.binary, hm,
    Bool.false_eq_true, if_false]

/-- Witness for the amended C2 at the concrete command `"none"`. -/
theorem unsupported_command_message_witness :
    relayFrom capsDemo "none" none "/cache" = Except.error
      (Error.UnsupportedCommand ("the relay chain command is unsupported: " ++ "none")) :=
  unsupported_command_message capsDemo "none" none "/cache" (by decide)

/-- Claim C3: in every successful resolution, the descriptor's latest marker
is absent whenever the caller supplied an explicit version hint; with no hint
it equals the first (newest) entry of the release list, hence it is present
exactly when additionally the release list is non-empty, and absent when the
release list is empty. -/
theorem latest_marker_semantics (caps : Caps) (command : String)
    (version : Option String) (cache : String) (rs : List String) (t : String)
    (r : ResolvedRelay) (arch : ReleaseArchive)
    (hm : ends_with (lowercase command) "polkadot" = true)
    (hrel : caps.releases RelayChain.Polkadot = Except.ok rs)
    (ht : caps.target = Except.ok t)
    (hr : relayFrom caps command version cache = Except.ok r)
    (ha : r.binary.source = Source.GitHub arch) :
    arch.latest = (if version.isNone then rs.head? else none) ∧
    (version.isSome → arch.latest = none) ∧
    (version = none → arch.latest = rs.head?) ∧
    (rs = [] → arch.latest = none) := by
  rw [fromLoop_match caps command version cache rs t hm hrel ht] at hr
  injection hr with hr
  subst hr
  simp only [polkadotResolved, polkadotArchive, Source.GitHub.injEq] at ha
  subst ha
  refine ⟨rfl, fun hs => ?_, fun hn => ?_, fun he => ?_⟩
  · cases version with
    | none => simp at hs
    | some v => rfl
  · subst hn
    rfl
  · subst he
    cases version with
    | none => rfl
    | some v => rfl

/-- Witness for C3 at a concrete capability bundle, with no version hint and
a non-empty release list. -/
theorem latest_marker_semantics_witness :
    (polkadotArchive (some "v1.13.0") (some "v1.13.0")
        "x86_64-unknown-linux-gnu").latest =
      (if (none : Option String).isNone
        then (["v1.13.0", "v1.12.0"] : List String).head? else none) ∧
    ((none : Option String).isSome →
      (polkadotArchive (some "v1.13.0") (some "v1.13.0")
        "x86_64-unknown-linux-gnu").latest = none) ∧
    ((none : Option String) = none →
      (polkadotArchive (some "v1.13.0") (some "v1.13.0")
        "x86_64-unknown-linux-gnu").latest =
        (["v1.13.0", "v1.12.0"] : List String).head?) ∧
    ((["v1.13.0", "v1.12.0"] : List String) = [] →
      (polkadotArchive (some "v1.13.0") (some "v1.13.0")
        "x86_64-unknown-linux-gnu").latest = none) :=
  latest_marker_semantics capsDemo "polkadot" none "/cache"
    ["v1.13.0", "v1.12.0"] "x86_64-unknown-linux-gnu"
    (polkadotResolved (some "v1.13.0") (some "v1.13.0")
      "x86_64-unknown-linux-gnu" "/cache")
    (polkadotArchive (some "v1.13.0") (some "v1.13.0") "x86_64-unknown-linux-gnu")
    (by decide) rfl rfl rfl rfl

/-- Claim C4: command matching is suffix-based on the lower-cased command and
case-insensitive, first declared match winning: both
`"./bin-v1.6.0/polkadot"` and `"POLKADOT"` match the `Polkadot` variant, and
resolution of either command proceeds exactly as for the command
`"polkadot"` itself, for every capability bundle, version and cache. -/
theorem command_matching_suffix_case_insensitive :
    (RelayChain.VARIANTS.filter fun rel =>
      ends_with (lowercase "./bin-v1.6.0/polkadot") rel.binary) = [RelayChain.Polkadot] ∧
    (RelayChain.VARIANTS.filter fun rel =>
      ends_with (lowercase "POLKADOT") rel.binary) = [RelayChain.Polkadot] ∧
    (∀ caps version cache, relayFrom caps "./bin-v1.6.0/polkadot" version cache =
      relayFrom caps "polkadot" version cache) ∧
    (∀ caps version cache, relayFrom caps "POLKADOT" version cache =
      relayFrom caps "polkadot" version cache) := by
  have h1 : ends_with (lowercase "./bin-v1.6.0/polkadot")
      (RelayChain.binary RelayChain.Polkadot) = true := by decide
  have h2 : ends_with (lowercase "POLKADOT")
      (RelayChain.binary RelayChain.Polkadot) = true := by decide
  have h3 : ends_with (lowercase "polkadot")
      (RelayChain.binary RelayChain.Polkadot) = true := by decide
  refine ⟨by decide, by decide, fun caps version cache => ?_, fun caps version cache => ?_⟩
  · simp only [relayFrom, RelayChain.VARIANTS, fromLoop, h1, h3, if_true]
  · simp only [relayFrom, RelayChain.VARIANTS, fromLoop, h2, h3, if_true]

/-- Claim C5: for every variant and every tag/latest argument, the descriptor
built by `try_into` has contents whose first element is the variant's binary
name and whose remaining elements are the variant's worker binaries in
declaration order. -/
theorem build_contents_structure (caps : Caps) (relay : RelayChain)
    (tag latest : Option String) (arch : ReleaseArchive)
    (h : RelayChain.try_into caps relay tag latest = Except.ok (Source.GitHub arch)) :
    arch.contents = relay.binary :: relay.workers := by
  cases relay
  cases ht : caps.target with
  | error e =>
    simp [RelayChain.try_into, RelayChain.repository, githubParse_polkadot, ht,
      bind, Except.bind] at h
  | ok t =>
    simp only [RelayChain.try_into, RelayChain.repository, githubParse_polkadot, ht,
      bind, Except.bind, Except.ok.injEq, Source.GitHub.injEq] at h
    rw [← h]

/-- Witness for C5 at the sole variant and a concrete tag. -/
theorem build_contents_structure_witness :
    (polkadotArchive (some "v1.12.0") none "x86_64-unknown-linux-gnu").contents =
      RelayChain.Polkadot.binary :: RelayChain.Polkadot.workers :=
  build_contents_structure capsDemo RelayChain.Polkadot (some "v1.12.0") none
    (polkadotArchive (some "v1.12.0") none "x86_64-unknown-linux-gnu") rfl

/-- Claim C6: the descriptor's archive filename is exactly the binary name,
a hyphen, the platform triple returned by the platform-detection capability,
and the extension `.tar.gz`; two builds differing only in the platform triple
differ only in that filename, every other field being equal. -/
theorem archive_filename (caps₁ caps₂ : Caps) (relay : RelayChain)
    (tag latest : Option String) (t₁ t₂ : String) (a₁ a₂ : ReleaseArchive)
    (ht₁ : caps₁.target = Except.ok t₁) (ht₂ : caps₂.target = Except.ok t₂)
    (h₁ : RelayChain.try_into caps₁ relay tag latest = Except.ok (Source.GitHub a₁))
    (h₂ : RelayChain.try_into caps₂ relay tag latest = Except.ok (Source.GitHub a₂)) :
    a₁.archive = relay.binary ++ "-" ++ t₁ ++ ".tar.gz" ∧
    a₂.archive = relay.binary ++ "-" ++ t₂ ++ ".tar.gz" ∧
    a₁.owner = a₂.owner ∧ a₁.repository = a₂.repository ∧ a₁.tag = a₂.tag ∧
    a₁.tag_format = a₂.tag_format ∧ a₁.contents = a₂.contents ∧
    a₁.latest = a₂.latest := by
  cases relay
  simp only [RelayChain.try_into, RelayChain.repository, githubParse_polkadot, ht₁, ht₂,
    bind, Except.bind, Except.ok.injEq, Source.GitHub.injEq] at h₁ h₂
  rw [← h₁, ← h₂]
  exact ⟨rfl, rfl, rfl, rfl, rfl, rfl, rfl, rfl⟩

/-- Witness for C6: two builds identical except for the platform triple. -/
theorem archive_filename_witness :
    (polkadotArchive (some "v1.12.0") none "x86_64-unknown-linux-gnu").archive =
      RelayChain.Polkadot.binary ++ "-" ++ "x86_64-unknown-linux-gnu" ++ ".tar.gz" ∧
    (polkadotArchive (some "v1.12.0") none "aarch64-apple-darwin").archive =
      RelayChain.Polkadot.binary ++ "-" ++ "aarch64-apple-darwin" ++ ".tar.gz" ∧
    (polkadotArchive (some "v1.12.0") none "x86_64-unknown-linux-gnu").owner =
      (polkadotArchive (some "v1.12.0") none "aarch64-apple-darwin").owner ∧
    (polkadotArchive (some "v1.12.0") none "x86_64-unknown-linux-gnu").repository =
      (polkadotArchive (some "v1.12.0") none "aarch64-apple-darwin").repository ∧
    (polkadotArchive (some "v1.12.0") none "x86_64-unknown-linux-gnu").tag =
      (polkadotArchive (some "v1.12.0") none "aarch64-apple-darwin").tag ∧
    (polkadotArchive (some "v1.12.0") none "x86_64-unknown-linux-gnu").tag_format =
      (polkadotArchive (some "v1.12.0") none "aarch64-apple-darwin").tag_format ∧
    (polkadotArchive (some "v1.12.0") none "x86_64-unknown-linux-gnu").contents =
      (polkadotArchive (some "v1.12.0") none "aarch64-apple-darwin").contents ∧
    (polkadotArchive (some "v1.12.0") none "x86_64-unknown-linux-gnu").latest =
      (polkadotArchive (some "v1.12.0") none "aarch64-apple-darwin").latest :=
  archive_filename capsDemo capsNoVersion RelayChain.Polkadot
    (some "v1.12.0") none "x86_64-unknown-linux-gnu" "aarch64-apple-darwin"
    (polkadotArchive (some "v1.12.0") none "x86_64-unknown-linux-gnu")
    (polkadotArchive (some "v1.12.0") none "aarch64-apple-darwin")
    rfl rfl rfl rfl

/-- Claim C7 counterexample: the version-resolution capability is invoked
infallibly — its call site takes an optional tag back directly, with no error
path — so a resolver that yields no tag at all (the nearest its type admits
to a failure) does not make resolution fail: the call still succeeds, with
`tag` absent, rather than propagating any version-resolution error. -/
theorem version_resolution_infallible_counterexample :
    relayFrom capsNoVersion "polkadot" (some "v9.9.9") "/cache" =
      Except.ok (polkadotResolved none none "aarch64-apple-darwin" "/cache") := rfl

/-- Claim C7 (amended): failures of the release-listing capability propagate
to the caller of `resolve_command` unchanged, not wrapped or reinterpreted;
the version-resolution capability, however, is invoked infallibly (it returns
an optional tag directly, with no error path at its call site), so it
contributes no errors; no error in the core is swallowed or retried. -/
theorem release_error_propagation (caps : Caps) (command : String)
    (version : Option String) (cache : String) (e : Error)
    (hm : ends_with (lowercase command) "polkadot" = true)
    (hrel : caps.releases RelayChain.Polkadot = Except.error e) :
    relayFrom caps command version cache = Except.error e := by
  simp only [relayFrom, RelayChain.VARIANTS, fromLoop, RelayChain.binary, hm, if_true,
    hrel, bind, Except.bind]

/-- Witness for the amended C7 at a concrete failing release listing. -/
theorem release_error_propagation_witness :
    relayFrom capsReleasesFail "polkadot" none "/cache" =
      Except.error (Error.External "release listing failed") :=
  release_error_propagation capsReleasesFail "polkadot" none "/cache"
    (Error.External "release listing failed") (by decide) rfl

/-- Claim C8: `try_into` is deterministic with no hidden state: two calls
with the same variant, equal tag and latest arguments, and an unchanged
capability bundle (hence an unchanged platform-detection result) yield equal
results under value equality. -/
theorem try_into_deterministic (caps : Caps) (relay : RelayChain)
    (tag₁ tag₂ latest₁ latest₂ : Option String)
    (htag : tag₁ = tag₂) (hlatest : latest₁ = latest₂) :
    RelayChain.try_into caps relay tag₁ latest₁ =
      RelayChain.try_into caps relay tag₂ latest₂ := by
  rw [htag, hlatest]

/-- Witness for C8 at concrete arguments. -/
theorem try_into_deterministic_witness :
    RelayChain.try_into capsDemo RelayChain.Polkadot (some "v1.12.0") none =
      RelayChain.try_into capsDemo RelayChain.Polkadot (some "v1.12.0") none :=
  try_into_deterministic capsDemo RelayChain.Polkadot (some "v1.12.0") (some "v1.12.0")
    none none rfl rfl

/-- Claim C9: `resolve_default` resolves the registry's sole, canonical
variant: the registry contains exactly `Polkadot`, and for every capability
bundle, version hint and cache path, `resolve_default` returns exactly what
`resolve_command` returns when given that variant's binary name `"polkadot"`
as the command. -/
theorem resolve_default_refines_resolve_command :
    RelayChain.VARIANTS = [RelayChain.Polkadot] ∧
    ∀ caps version cache,
      relayDefault caps version cache = relayFrom caps "polkadot" version cache :=
  ⟨rfl, fun _ _ _ => rfl⟩

/-- Claim C10: every successful resolution names its binary handle with the
matched variant's canonical binary name `"polkadot"` — never with the
caller's command string — and carries the input cache path unchanged. -/
theorem handle_name_and_cache (caps : Caps) (command : String)
    (version : Option String) (cache : String) (r : ResolvedRelay)
    (h : relayFrom caps command version cache = Except.ok r) :
    r.binary.name = "polkadot" ∧ r.binary.cache = cache := by
  by_cases hm : ends_with (lowercase command) (RelayChain.binary RelayChain.Polkadot) = true
  case pos =>
    cases hrel : caps.releases RelayChain.Polkadot with
    | error e =>
      simp [relayFrom, RelayChain.VARIANTS, fromLoop, hm, hrel, bind, Except.bind] at h
    | ok rs =>
      cases ht : caps.target with
      | error e =>
        simp [relayFrom, RelayChain.VARIANTS, fromLoop, hm, hrel, ht,
          RelayChain.try_into, RelayChain.repository, githubParse_polkadot,
          bind, Except.bind] at h
      | ok t =>
        rw [fromLoop_match caps command version cache rs t hm hrel ht] at h
        injection h with h
        subst h
        exact ⟨rfl, rfl⟩
  case neg =>
    rw [Bool.not_eq_true] at hm
    simp [relayFrom, RelayChain.VARIANTS, fromLoop, hm] at h

/-- Witness for C10 at the upper-cased command `"POLKADOT"`. -/
theorem handle_name_and_cache_witness :
    (polkadotResolved (some "v1.13.0") (some "v1.13.0")
      "x86_64-unknown-linux-gnu" "/cache").binary.name = "polkadot" ∧
    (polkadotResolved (some "v1.13.0") (some "v1.13.0")
      "x86_64-unknown-linux-gnu" "/cache").binary.cache = "/cache" :=
  handle_name_and_cache capsDemo "POLKADOT" none "/cache"
    (polkadotResolved (some "v1.13.0") (some "v1.13.0")
      "x86_64-unknown-linux-gnu" "/cache") rfl

end Relay
